import Mathlib

/-!
The `BlocksData` listing endpoint of handlers/blocks.go

A shallow embedding of `BlocksData` (src/handlers/blocks.go, lines 55-216).

* Go strings are byte sequences (`GoString`).
* `uint64` values are natural numbers; subtraction and addition are taken
  modulo `2^64` (`subU64`, `addU64`).
* The datastore `db.DB` is a record of the four queries the handler issues
  (`Store`); `none` stands for `err != nil`.
* The handler returns either the HTTP status of `http.Error` or the
  `types.DataTableResponse` handed to the JSON encoder.
-/

namespace Handlers

/-! ## Go strings and the library calls used by the handler -/

/-- A Go string: an immutable sequence of bytes. -/
abbrev GoString := List UInt8

/-- The string literal "0x" (bytes 0x30 0x78). -/
def lit0x : GoString := [0x30, 0x78]

/-- The string literal "%" (byte 0x25). -/
def litPercent : GoString := [0x25]

/-- Worker of `Replace`: scans `s` from the left; `skip` counts the bytes of a
match that are still to be dropped. Matches are the leftmost, non-overlapping
occurrences of `old`. -/
def ReplaceFrom (old new : GoString) : Nat → GoString → GoString
  | _, [] => []
  | skip + 1, _ :: rest => ReplaceFrom old new skip rest
  | 0, c :: rest =>
    if old.isPrefixOf (c :: rest) then new ++ ReplaceFrom old new (old.length - 1) rest
    else c :: ReplaceFrom old new 0 rest

/-- Go `strings.Replace(s, old, new, -1)` for a non-empty `old`: every
non-overlapping instance of `old` is replaced by `new`, in one left-to-right
pass. -/
def Replace (s old new : GoString) : GoString := ReplaceFrom old new 0 s

/-- Go `strconv.ParseUint(s, 10, 64)`: `none` on the empty string, on a byte
that is not a decimal digit, and on a value above `2^64 - 1`. -/
def ParseUint (s : GoString) : Option Nat :=
  if s = [] then none
  else
    s.foldlM
      (fun n c =>
        if 48 ≤ c.toNat ∧ c.toNat ≤ 57 then
          let n1 := n * 10 + (c.toNat - 48)
          if n1 < 18446744073709551616 then some n1 else none
        else none)
      0

/-- One lower-case hexadecimal digit. -/
def hexDigit (d : Nat) : UInt8 :=
  if d < 10 then UInt8.ofNat (48 + d) else UInt8.ofNat (87 + d)

/-- Go `fmt.Sprintf("%x", s)` on a string: two lower-case hex digits per byte. -/
def hexString (s : GoString) : GoString :=
  s.flatMap (fun b => [hexDigit (b.toNat / 16), hexDigit (b.toNat % 16)])

/-! ## Unsigned 64-bit arithmetic -/

/-- Go `a - b` on `uint64`. -/
def subU64 (a b : Nat) : Nat :=
  (a + (18446744073709551616 - b % 18446744073709551616)) % 18446744073709551616

/-- Go `a + b` on `uint64`. -/
def addU64 (a b : Nat) : Nat := (a + b) % 18446744073709551616

/-! ## The pagination arithmetic of `BlocksData` -/

/-- Lines 81-83: `if length > 100 { length = 100 }`. -/
def clampLength (length : Nat) : Nat := if length > 100 then 100 else length

/-- The two bounds handed to the range query: `endSlot` is `$1` (the low
key), `startSlot` is `$2` (the high key). -/
structure Window where
  endSlot : Nat
  startSlot : Nat
  deriving DecidableEq

/-- Lines 95-103 of `BlocksData`: the slot window of the unfiltered branch. -/
def resolveWindow (blocksCount start length : Nat) : Window :=
  let startSlot := subU64 blocksCount start
  let endSlot := addU64 (subU64 (subU64 blocksCount start) length) 1
  let startSlot := if startSlot > 9223372036854775807 then blocksCount else startSlot
  let endSlot := if endSlot > 9223372036854775807 then 0 else endSlot
  { endSlot := endSlot, startSlot := startSlot }

/-- The three pattern arguments of the search queries (lines 136 and 177):
`search+"%"`, `"%"+search+"%"` and `fmt.Sprintf("%%%x%%", search)`. -/
def searchPatterns (search : GoString) : GoString × GoString × GoString :=
  (search ++ litPercent,
   litPercent ++ search ++ litPercent,
   litPercent ++ hexString search ++ litPercent)

/-! ## Request, datastore and response -/

/-- The values `q.Get` returns for the four query parameters that
`BlocksData` reads (a missing parameter is the empty string). -/
structure Query where
  search : GoString
  draw : GoString
  start : GoString
  length : GoString

/-- The four queries `BlocksData` sends to `db.DB`; `none` is a datastore
error. -/
structure Store (Block : Type) where
  /-- Line 88: `SELECT COALESCE(MAX(slot) + 1,0) FROM blocks`. -/
  getBlocksCount : Option Nat
  /-- Lines 104-123: the rows with `slot >= $1 AND slot <= $2`, slot descending. -/
  selectRange : Nat → Nat → Option (List Block)
  /-- Lines 125-136: `SELECT count(*)` over the search predicate (`$1 $2 $3`). -/
  getSearchCount : GoString → GoString → GoString → Option Nat
  /-- Lines 143-177: the page of matching rows (`$1 $2 $3`, `LIMIT $4 OFFSET $5`). -/
  selectSearch : GoString → GoString → GoString → Nat → Nat → Option (List Block)

/-- The `types.DataTableResponse` built at lines 203-208. -/
structure DataTableResponse (Row : Type) where
  Draw : Nat
  RecordsTotal : Nat
  RecordsFiltered : Nat
  Data : List Row

/-- Lines 85-184: the count query and the page query of the branch selected
by `search == ""`. -/
def fetchBlocks {Block : Type} (db : Store Block) (search : GoString)
    (start length : Nat) : Option (Nat × List Block) :=
  if search = [] then
    match db.getBlocksCount with
    | none => none
    | some blocksCount =>
      let w := resolveWindow blocksCount start length
      match db.selectRange w.endSlot w.startSlot with
      | none => none
      | some blocks => some (blocksCount, blocks)
  else
    let p := searchPatterns search
    match db.getSearchCount p.1 p.2.1 p.2.2 with
    | none => none
    | some blocksCount =>
      match db.selectSearch p.1 p.2.1 p.2.2 length start with
      | none => none
      | some blocks => some (blocksCount, blocks)

/-- The handler `BlocksData` (lines 55-216). `project` is the row projector
of lines 187-201 (the `utils.Format*` helpers). The result is the status
given to `http.Error`, or the response given to the JSON encoder. -/
def BlocksData {Block Row : Type} (db : Store Block) (project : Block → Row)
    (q : Query) : Except Nat (DataTableResponse Row) :=
  let search := Replace q.search lit0x []
  match ParseUint q.draw with
  | none => .error 503
  | some draw =>
    match ParseUint q.start with
    | none => .error 503
    | some start =>
      match ParseUint q.length with
      | none => .error 503
      | some length =>
        let length := clampLength length
        match fetchBlocks db search start length with
        | none => .error 503
        | some (blocksCount, blocks) =>
          .ok { Draw := draw
                RecordsTotal := blocksCount
                RecordsFiltered := blocksCount
                Data := blocks.map project }

/-! ## The unfiltered queries over a concrete table -/

/-- SQL `MAX(slot)` over the rows: `none` (NULL) for an empty table. -/
def maxSlot : List Nat → Option Nat
  | [] => none
  | s :: rest =>
    match maxSlot rest with
    | none => some s
    | some m => some (max s m)

/-- SQL `COALESCE(MAX(slot) + 1, 0)` (line 88). -/
def maxSlotPlusOne (slots : List Nat) : Nat :=
  match maxSlot slots with
  | none => 0
  | some m => m + 1

/-- Insertion into a list that is ordered by slot, descending. -/
def insertDesc {Block : Type} (slot : Block → Nat) (b : Block) : List Block → List Block
  | [] => [b]
  | c :: rest => if slot c ≤ slot b then b :: c :: rest else c :: insertDesc slot b rest

/-- SQL `ORDER BY blocks.slot DESC`. -/
def orderBySlotDesc {Block : Type} (slot : Block → Nat) : List Block → List Block
  | [] => []
  | b :: rest => insertDesc slot b (orderBySlotDesc slot rest)

/-- The range query of lines 104-123 over a table:
`WHERE blocks.slot >= $1 AND blocks.slot <= $2 ORDER BY blocks.slot DESC`. -/
def selectRangeOf {Block : Type} (slot : Block → Nat) (table : List Block)
    (lo hi : Nat) : List Block :=
  orderBySlotDesc slot (table.filter (fun b => decide (lo ≤ slot b) && decide (slot b ≤ hi)))

/-- A datastore whose unfiltered queries are answered from `table`; the two
search queries are left to the caller. -/
def tableStore {Block : Type} (slot : Block → Nat) (table : List Block)
    (count : GoString → GoString → GoString → Option Nat)
    (page : GoString → GoString → GoString → Nat → Nat → Option (List Block)) :
    Store Block :=
  { getBlocksCount := some (maxSlotPlusOne (table.map slot))
    selectRange := fun lo hi => some (selectRangeOf slot table lo hi)
    getSearchCount := count
    selectSearch := page }


/-! ## A concrete datastore and two requests -/

/-- A blocks table with one row per slot 0..3, each row identified by its
slot; every search query fails. -/
def fourBlockStore : Store Nat :=
  tableStore id [0, 1, 2, 3] (fun _ _ _ => none) (fun _ _ _ _ _ => none)

/-- The request `draw=1&start=0&length=2` with no search value. -/
def firstPageQuery : Query :=
  { search := [], draw := [0x31], start := [0x30], length := [0x32] }

/-- The response to `firstPageQuery` on `fourBlockStore`: the window is
`[3, 4]`, which holds the one row of slot 3. -/
def firstPageResponse : DataTableResponse Nat :=
  { Draw := 1, RecordsTotal := 4, RecordsFiltered := 4, Data := [3] }

/-- The request `draw=1&start=5&length=1` with no search value. -/
def pastEndQuery : Query :=
  { search := [], draw := [0x31], start := [0x35], length := [0x31] }

/-! ## Supporting lemmas -/

/-- An empty table has `blocksCount = 0`. -/
theorem maxSlotPlusOne_nil : maxSlotPlusOne [] = 0 := rfl

/-- On a non-empty table `maxSlot` is the greatest slot. -/
theorem maxSlot_spec (slots : List Nat) (h : slots ≠ []) :
    ∃ m, maxSlot slots = some m ∧ m ∈ slots ∧ ∀ s ∈ slots, s ≤ m := by
  induction slots with
  | nil => exact absurd rfl h
  | cons a rest ih =>
    cases rest with
    | nil => exact ⟨a, by simp [maxSlot]⟩
    | cons b rest =>
      obtain ⟨m, hm, hmem, hle⟩ := ih (by simp)
      refine ⟨max a m, by rw [maxSlot, hm], ?_, ?_⟩
      · rcases Nat.le_total a m with h1 | h1
        · rw [Nat.max_eq_right h1]; exact List.mem_cons_of_mem _ hmem
        · rw [Nat.max_eq_left h1]; exact List.mem_cons_self _ _
      · intro s hs
        rcases List.mem_cons.1 hs with rfl | hs
        · exact Nat.le_max_left _ _
        · exact Nat.le_trans (hle s hs) (Nat.le_max_right _ _)

/-- On a non-empty table `blocksCount` is the greatest slot plus one. -/
theorem maxSlotPlusOne_spec (slots : List Nat) (h : slots ≠ []) :
    ∃ m ∈ slots, (∀ s ∈ slots, s ≤ m) ∧ maxSlotPlusOne slots = m + 1 := by
  obtain ⟨m, hm, hmem, hle⟩ := maxSlot_spec slots h
  exact ⟨m, hmem, hle, by simp [maxSlotPlusOne, hm]⟩

/-- The length clamp of lines 81-83 is `min length 100`. -/
theorem clampLength_eq_min (length : Nat) : clampLength length = min length 100 := by
  unfold clampLength; split <;> omega

/-- The scan of `Replace` passes over a stretch `a` that holds no "0x", as long
as what follows cannot complete a "0x" begun by the last byte of `a`. -/
theorem ReplaceFrom_append_of_no_0x (a t : GoString)
    (ha : ¬ lit0x <:+: a) (ht : t.head? ≠ some 0x78) :
    ReplaceFrom lit0x [] 0 (a ++ t) = a ++ ReplaceFrom lit0x [] 0 t := by
  induction a with
  | nil => simp
  | cons c a ih =>
    have ha' : ¬ lit0x <:+: a :=
      fun hin => ha (List.IsInfix.trans hin (List.infix_cons (List.infix_refl _)))
    have hp : lit0x.isPrefixOf (c :: (a ++ t)) = false := by
      cases a with
      | nil =>
        cases t with
        | nil => simp [lit0x, List.isPrefixOf]
        | cons d t =>
          have hd : d ≠ 0x78 := by simpa using ht
          simp [lit0x, List.isPrefixOf, hd]
          intro _ h; exact absurd h.symm hd
      | cons d a =>
        have hcd : ¬ (c = 0x30 ∧ d = 0x78) := by
          rintro ⟨rfl, rfl⟩
          exact ha ⟨[], a, by simp [lit0x]⟩
        simp [lit0x, List.isPrefixOf]
        intro h1 h2
        exact hcd ⟨h1.symm, h2.symm⟩
    rw [List.cons_append, ReplaceFrom, hp]
    simp [ih ha']

/-- A leading "0x" is dropped and the scan goes on behind it. -/
theorem Replace_0x_cons (s : GoString) :
    Replace (lit0x ++ s) lit0x [] = Replace s lit0x [] := by
  simp [Replace, lit0x, ReplaceFrom, List.isPrefixOf]

/-- The count returned with a page is the result of the count query of the
branch that was taken. -/
theorem fetchBlocks_count {Block : Type} (db : Store Block) (search : GoString)
    (start length n : Nat) (blocks : List Block)
    (h : fetchBlocks db search start length = some (n, blocks)) :
    (search = [] → db.getBlocksCount = some n) ∧
      (search ≠ [] →
        db.getSearchCount (searchPatterns search).1 (searchPatterns search).2.1
          (searchPatterns search).2.2 = some n) := by
  unfold fetchBlocks at h
  split at h
  · rename_i hs
    refine ⟨fun _ => ?_, fun hne => absurd hs hne⟩
    split at h
    · cases h
    · rename_i bc hbc
      simp only at h
      split at h
      · cases h
      · simp only [Option.some.injEq, Prod.mk.injEq] at h
        rw [hbc, h.1]
  · rename_i hs
    refine ⟨fun he => absurd he hs, fun _ => ?_⟩
    simp only at h
    split at h
    · cases h
    · rename_i bc hbc
      split at h
      · cases h
      · simp only [Option.some.injEq, Prod.mk.injEq] at h
        rw [hbc, h.1]

/-- With `start <= blocksCount` and `blocksCount` below `2^63 - 1`, a
non-inverted window holds at most `min(length, 100)` slot values. -/
theorem page_window_size_of_start_le (blocksCount start length : Nat)
    (hbc : blocksCount < 2 ^ 63 - 1) (hs : start ≤ blocksCount)
    (hw : (resolveWindow blocksCount start (clampLength length)).endSlot
        ≤ (resolveWindow blocksCount start (clampLength length)).startSlot) :
    (resolveWindow blocksCount start (clampLength length)).startSlot
        - (resolveWindow blocksCount start (clampLength length)).endSlot + 1
      ≤ min length 100 := by
  rw [clampLength_eq_min] at hw ⊢
  have hlen : min length 100 ≤ 100 := Nat.min_le_right _ _
  generalize min length 100 = len at hw hlen ⊢
  revert hw
  simp only [resolveWindow, subU64, addU64]
  norm_num at hbc
  split <;> split <;> omega

/-- With `start > blocksCount` (both below `2^62`) and a page length between 1
and 100, the window is the whole table, `[0, blocksCount]`. -/
theorem resolveWindow_past_end_whole_table (blocksCount start length : Nat)
    (hs : start < 2 ^ 62) (h : blocksCount < start)
    (h1 : 1 ≤ length) (h100 : length ≤ 100) :
    resolveWindow blocksCount start length = { endSlot := 0, startSlot := blocksCount } := by
  norm_num at hs
  have hhi : (resolveWindow blocksCount start length).startSlot = blocksCount := by
    simp only [resolveWindow, subU64]
    split <;> omega
  have hlo : (resolveWindow blocksCount start length).endSlot = 0 := by
    simp only [resolveWindow, subU64, addU64]
    split <;> omega
  cases hw : resolveWindow blocksCount start length with
  | mk e s =>
    rw [hw] at hhi hlo
    simp only at hhi hlo
    rw [hhi, hlo]

/-! ## Window resolver (lines 95-103) -/

/-- Claim C1, as stated, fails: with `blocksCount = 5`, `start = 6`,
`length = 0` the hypotheses of the claim hold, yet the high key is 5, which is
not `blocksCount - start`. -/
theorem resolveWindow_in_range_counterexample :
    (5 : Nat) < 2 ^ 63 ∧ (0 : Nat) ≤ 100 ∧ (6 : Nat) + 0 ≤ 5 + 1 ∧
      (resolveWindow 5 6 0).startSlot = 5 ∧
      ((resolveWindow 5 6 0).startSlot : Int) ≠ ((5 : Nat) : Int) - ((6 : Nat) : Int) ∧
      (resolveWindow 5 6 0).startSlot ≠ 5 - 6 := by
  decide

/-- Claim C1, amended with `1 <= length`: for `blocksCount < 2^63`,
`1 <= length <= 100` and `start + length <= blocksCount + 1`, the high key is
`blocksCount - start` and the low key is `blocksCount - start - length + 1`
(as integers). -/
theorem resolveWindow_in_range (blocksCount start length : Nat)
    (hbc : blocksCount < 2 ^ 63) (h1 : 1 ≤ length) (h100 : length ≤ 100)
    (h : start + length ≤ blocksCount + 1) :
    ((resolveWindow blocksCount start length).startSlot : Int)
        = (blocksCount : Int) - (start : Int) ∧
      ((resolveWindow blocksCount start length).endSlot : Int)
        = (blocksCount : Int) - (start : Int) - (length : Int) + 1 := by
  simp only [resolveWindow, subU64, addU64]
  norm_num at hbc
  constructor
  · split <;> omega
  · split <;> omega

/-- Claim C1 at `blocksCount = 100`, `start = 0`, `length = 10`: the window
is `[91, 100]`. -/
theorem resolveWindow_in_range_witness :
    resolveWindow 100 0 10 = { endSlot := 91, startSlot := 100 } ∧
      ((resolveWindow 100 0 10).startSlot : Int) = ((100 : Nat) : Int) - ((0 : Nat) : Int) ∧
      ((resolveWindow 100 0 10).endSlot : Int)
        = ((100 : Nat) : Int) - ((0 : Nat) : Int) - ((10 : Nat) : Int) + 1 :=
  ⟨by decide,
   resolveWindow_in_range 100 0 10 (by norm_num) (by norm_num) (by norm_num) (by norm_num)⟩

/-- Claim C2, as stated, fails: with `blocksCount = 0` and
`start = 2^63 + 1` the wrapped difference is `2^63 - 1`, which the guard at
line 98 lets through, so the high key is not `blocksCount`. -/
theorem resolveWindow_start_past_end_counterexample :
    (0 : Nat) < 9223372036854775809 ∧ (9223372036854775809 : Nat) < 2 ^ 64 ∧
      (resolveWindow 0 9223372036854775809 10).startSlot = 9223372036854775807 ∧
      (resolveWindow 0 9223372036854775809 10).startSlot ≠ 0 := by
  decide

/-- Claim C2, amended with `start - blocksCount <= 2^63`: for
`blocksCount < start <= blocksCount + 2^63` and every length, the high key is
`blocksCount`. -/
theorem resolveWindow_start_past_end (blocksCount start length : Nat)
    (h : blocksCount < start) (hd : start ≤ blocksCount + 2 ^ 63) :
    (resolveWindow blocksCount start length).startSlot = blocksCount := by
  simp only [resolveWindow, subU64]
  norm_num at hd
  split <;> omega

/-- Claim C2 (amended) at `blocksCount = 100`, `start = 101`, `length = 10`. -/
theorem resolveWindow_start_past_end_witness :
    (100 : Nat) < 101 ∧ (101 : Nat) ≤ 100 + 2 ^ 63 ∧
      (resolveWindow 100 101 10).startSlot = 100 :=
  ⟨by norm_num, by norm_num,
   resolveWindow_start_past_end 100 101 10 (by norm_num) (by norm_num)⟩

/-- Claim C3: for `blocksCount` and `start` below `2^62` and every requested
length, if `start` plus the clamped length exceeds `blocksCount`, the low key
is 0. -/
theorem resolveWindow_low_clamp (blocksCount start length : Nat)
    (hbc : blocksCount < 2 ^ 62) (hs : start < 2 ^ 62)
    (h : blocksCount < start + clampLength length) :
    (resolveWindow blocksCount start (clampLength length)).endSlot = 0 := by
  have hl : clampLength length ≤ 100 := by
    unfold clampLength; split <;> omega
  generalize clampLength length = len at h hl
  simp only [resolveWindow, subU64, addU64]
  norm_num at hbc hs
  split <;> omega

/-- Claim C3 at `blocksCount = 5`, `start = 0`, requested length 200. -/
theorem resolveWindow_low_clamp_witness :
    clampLength 200 = 100 ∧ (5 : Nat) < 0 + clampLength 200 ∧
      (resolveWindow 5 0 (clampLength 200)).endSlot = 0 :=
  ⟨by decide, by decide,
   resolveWindow_low_clamp 5 0 200 (by norm_num) (by norm_num) (by decide)⟩

/-- Claim C4 fails on the code: on a table with slots 0..3 the request
`start=5, length=1` is answered with all four rows, and the window for
`blocksCount = 100`, `start = 101`, `length = 10` is `[0, 100]`. -/
theorem BlocksData_page_size_failing_input :
    BlocksData fourBlockStore id pastEndQuery
        = .ok { Draw := 1, RecordsTotal := 4, RecordsFiltered := 4, Data := [3, 2, 1, 0] } ∧
      ¬ ([3, 2, 1, 0].length ≤ min 1 100) ∧
      resolveWindow 4 5 (clampLength 1) = { endSlot := 0, startSlot := 4 } ∧
      ¬ ((resolveWindow 4 5 (clampLength 1)).startSlot
          - (resolveWindow 4 5 (clampLength 1)).endSlot + 1 ≤ min 1 100) ∧
      resolveWindow 100 101 (clampLength 10) = { endSlot := 0, startSlot := 100 } ∧
      ¬ ((resolveWindow 100 101 (clampLength 10)).startSlot
          - (resolveWindow 100 101 (clampLength 10)).endSlot + 1 ≤ min 10 100) :=
  ⟨rfl, by decide, by decide, by decide, by decide, by decide⟩

/-- Claim C5, as stated, fails: for `blocksCount = 100`, `start = 95`,
`length = 10` the high key is not 100. -/
theorem resolveWindow_start95_counterexample :
    (resolveWindow 100 95 10).startSlot ≠ 100 := by
  decide

/-- Claim C5, amended: for `blocksCount = 100`, `start = 95`, `length = 10`
the subtraction does not wrap, the high key is `blocksCount - start = 5`, and
the window is `[0, 5]`. -/
theorem resolveWindow_start95 :
    (resolveWindow 100 95 10).startSlot = 100 - 95 ∧
      resolveWindow 100 95 10 = { endSlot := 0, startSlot := 5 } := by
  decide

/-- Claim C6, as stated, fails: for `blocksCount = 0`, `start = 0`,
`length = 0` the low key is 1; and for `blocksCount = 0`, `start = 2^63 + 1`,
`length = 10` neither bound is 0. -/
theorem resolveWindow_empty_counterexample :
    (resolveWindow 0 0 0 = { endSlot := 1, startSlot := 0 } ∧
        (resolveWindow 0 0 0).endSlot ≠ 0) ∧
      (resolveWindow 0 9223372036854775809 10
          = { endSlot := 9223372036854775798, startSlot := 9223372036854775807 } ∧
        (resolveWindow 0 9223372036854775809 10).endSlot ≠ 0 ∧
        (resolveWindow 0 9223372036854775809 10).startSlot ≠ 0) := by
  decide

/-- Claim C6, amended with `1 <= length` and `start + length <= 2^63 + 1`:
for `blocksCount = 0` the window is `[0, 0]`. -/
theorem resolveWindow_empty (start length : Nat) (h1 : 1 ≤ length)
    (h : start + length ≤ 2 ^ 63 + 1) :
    resolveWindow 0 start length = { endSlot := 0, startSlot := 0 } := by
  norm_num at h
  have hs : (resolveWindow 0 start length).startSlot = 0 := by
    simp only [resolveWindow, subU64]
    split <;> omega
  have he : (resolveWindow 0 start length).endSlot = 0 := by
    simp only [resolveWindow, subU64, addU64]
    split <;> omega
  cases hw : resolveWindow 0 start length with
  | mk e s =>
    rw [hw] at hs he
    simp only at hs he
    rw [hs, he]

/-- Claim C6 (amended) at `start = 7`, `length = 10`. -/
theorem resolveWindow_empty_witness :
    (1 : Nat) ≤ 10 ∧ (7 : Nat) + 10 ≤ 2 ^ 63 + 1 ∧
      resolveWindow 0 7 10 = { endSlot := 0, startSlot := 0 } :=
  ⟨by norm_num, by norm_num, resolveWindow_empty 7 10 (by norm_num) (by norm_num)⟩

/-- Claim C10: for `blocksCount` and `start` below `2^62` and
`1 <= length <= 100`, the bounds satisfy
`0 <= lowKey <= highKey <= blocksCount`. -/
theorem resolveWindow_well_formed (blocksCount start length : Nat)
    (hbc : blocksCount < 2 ^ 62) (hs : start < 2 ^ 62)
    (h1 : 1 ≤ length) (h100 : length ≤ 100) :
    0 ≤ (resolveWindow blocksCount start length).endSlot ∧
      (resolveWindow blocksCount start length).endSlot
        ≤ (resolveWindow blocksCount start length).startSlot ∧
      (resolveWindow blocksCount start length).startSlot ≤ blocksCount := by
  simp only [resolveWindow, subU64, addU64]
  norm_num at hbc hs
  refine ⟨Nat.zero_le _, ?_, ?_⟩
  · split <;> split <;> omega
  · split <;> omega

/-- Claim C10 at `blocksCount = 100`, `start = 95`, `length = 10`. -/
theorem resolveWindow_well_formed_witness :
    0 ≤ (resolveWindow 100 95 10).endSlot ∧
      (resolveWindow 100 95 10).endSlot ≤ (resolveWindow 100 95 10).startSlot ∧
      (resolveWindow 100 95 10).startSlot ≤ 100 :=
  resolveWindow_well_formed 100 95 10 (by norm_num) (by norm_num) (by norm_num) (by norm_num)

/-! ## Search-term normalisation (lines 60-61) -/

/-- Claim C7, as stated, fails: "a0xb" does not start with "0x", yet its
term is "ab"; and "0x0xa" with its leading "0x" removed is "0xa", yet its term
is "a". -/
theorem Replace_0x_prefix_only_counterexample :
    (¬ lit0x <+: [0x61, 0x30, 0x78, 0x62] ∧
        Replace [0x61, 0x30, 0x78, 0x62] lit0x [] = [0x61, 0x62] ∧
        Replace [0x61, 0x30, 0x78, 0x62] lit0x [] ≠ [0x61, 0x30, 0x78, 0x62]) ∧
      (Replace (lit0x ++ [0x30, 0x78, 0x61]) lit0x [] = [0x61] ∧
        Replace (lit0x ++ [0x30, 0x78, 0x61]) lit0x [] ≠ [0x30, 0x78, 0x61]) := by
  decide

/-- Claim C7, amended: the term is the search value with every
non-overlapping "0x" removed in one left-to-right pass. For `a` without any
"0x": the term of `a` is `a`, the term of "0x" ++ `a` is `a`, and the term of
`a` ++ "0x" ++ `b` is `a` followed by the term of `b`. -/
theorem Replace_0x_spec (a b : GoString) (ha : ¬ lit0x <:+: a) :
    Replace a lit0x [] = a ∧
      Replace (lit0x ++ a) lit0x [] = a ∧
      Replace (a ++ lit0x ++ b) lit0x [] = a ++ Replace b lit0x [] := by
  have h1 : Replace a lit0x [] = a := by
    have h := ReplaceFrom_append_of_no_0x a [] ha (by simp)
    simpa [Replace, ReplaceFrom] using h
  refine ⟨h1, ?_, ?_⟩
  · rw [Replace_0x_cons, h1]
  · have h := ReplaceFrom_append_of_no_0x a (lit0x ++ b) ha (by simp [lit0x])
    have h2 := Replace_0x_cons b
    simp only [Replace] at h2 ⊢
    rw [List.append_assoc, h, h2]

/-- Claim C7 (amended) at `a` = "AB", `b` = "10x2". -/
theorem Replace_0x_spec_witness :
    ¬ lit0x <:+: [0x41, 0x42] ∧
      Replace [0x41, 0x42] lit0x [] = [0x41, 0x42] ∧
      Replace (lit0x ++ [0x41, 0x42]) lit0x [] = [0x41, 0x42] ∧
      Replace ([0x41, 0x42] ++ lit0x ++ [0x31, 0x30, 0x78, 0x32]) lit0x []
        = [0x41, 0x42] ++ Replace [0x31, 0x30, 0x78, 0x32] lit0x [] :=
  ⟨by decide, Replace_0x_spec [0x41, 0x42] [0x31, 0x30, 0x78, 0x32] (by decide)⟩

/-- Claim C8: the search values "0x" ++ `s` and `s` have the same term, the
same three query patterns, and the same outcome of the whole handler on every
datastore; in particular "0xAB12" and "AB12". -/
theorem BlocksData_0x_prefix_same (s : GoString) :
    Replace (lit0x ++ s) lit0x [] = Replace s lit0x [] ∧
      searchPatterns (Replace (lit0x ++ s) lit0x []) = searchPatterns (Replace s lit0x []) ∧
      (∀ (Block Row : Type) (db : Store Block) (project : Block → Row) (q : Query),
        BlocksData db project { q with search := lit0x ++ s }
          = BlocksData db project { q with search := s }) ∧
      Replace (lit0x ++ [0x41, 0x42, 0x31, 0x32]) lit0x []
        = Replace [0x41, 0x42, 0x31, 0x32] lit0x [] := by
  refine ⟨Replace_0x_cons s, by rw [Replace_0x_cons], ?_, Replace_0x_cons _⟩
  intro Block Row db project q
  simp only [BlocksData, Replace_0x_cons]

/-! ## Totals (lines 203-208) -/

/-- Claim C9: in every successful response `recordsTotal = recordsFiltered`;
with an empty term both are the result of the `blocksCount` query (the
greatest slot plus one, or 0, on a table), and with a non-empty term both are
the result of the count query over the search predicate. -/
theorem BlocksData_totals {Block Row : Type} (db : Store Block) (project : Block → Row)
    (q : Query) (resp : DataTableResponse Row)
    (h : BlocksData db project q = .ok resp) :
    resp.RecordsTotal = resp.RecordsFiltered ∧
      (Replace q.search lit0x [] = [] →
        db.getBlocksCount = some resp.RecordsTotal ∧
        db.getBlocksCount = some resp.RecordsFiltered ∧
        ∀ (slot : Block → Nat) (table : List Block)
          (count : GoString → GoString → GoString → Option Nat)
          (page : GoString → GoString → GoString → Nat → Nat → Option (List Block)),
          db = tableStore slot table count page →
            resp.RecordsTotal = maxSlotPlusOne (table.map slot)) ∧
      (Replace q.search lit0x [] ≠ [] →
        db.getSearchCount (searchPatterns (Replace q.search lit0x [])).1
          (searchPatterns (Replace q.search lit0x [])).2.1
          (searchPatterns (Replace q.search lit0x [])).2.2 = some resp.RecordsTotal ∧
        db.getSearchCount (searchPatterns (Replace q.search lit0x [])).1
          (searchPatterns (Replace q.search lit0x [])).2.1
          (searchPatterns (Replace q.search lit0x [])).2.2 = some resp.RecordsFiltered) := by
  unfold BlocksData at h
  simp only at h
  split at h
  · cases h
  · split at h
    · cases h
    · split at h
      · cases h
      · split at h
        · cases h
        · rename_i hf
          have hc := fetchBlocks_count db _ _ _ _ _ hf
          injection h with h
          subst h
          refine ⟨rfl, fun he => ⟨hc.1 he, hc.1 he, ?_⟩, fun hne => ⟨hc.2 hne, hc.2 hne⟩⟩
          intro slot table count page hdb
          have hb := hc.1 he
          rw [hdb] at hb
          simp only [tableStore, Option.some.injEq] at hb
          exact hb.symm

/-- Claim C9 on the table with slots 0..3 and the request
`draw=1&start=0&length=2`: both totals are 4. -/
theorem BlocksData_totals_witness :
    BlocksData fourBlockStore id firstPageQuery = .ok firstPageResponse ∧
      firstPageResponse.RecordsTotal = firstPageResponse.RecordsFiltered ∧
      fourBlockStore.getBlocksCount = some firstPageResponse.RecordsTotal ∧
      firstPageResponse.RecordsTotal = maxSlotPlusOne [0, 1, 2, 3] :=
  ⟨rfl,
   (BlocksData_totals fourBlockStore id firstPageQuery firstPageResponse rfl).1,
   ((BlocksData_totals fourBlockStore id firstPageQuery firstPageResponse rfl).2.1 rfl).1,
   ((BlocksData_totals fourBlockStore id firstPageQuery firstPageResponse rfl).2.1 rfl).2.2
      id [0, 1, 2, 3] (fun _ _ _ => none) (fun _ _ _ _ _ => none) rfl⟩

end Handlers
